import Mathlib

/-!
Verification of the contentpilot backend content pipeline.

Python strings are modelled as `List Char` (the ASCII fragment of `str.lower`,
`str.strip`, the `re` word/space classes suffices for every property below).
External collaborators (the HTTP layer, `json.loads`, `feedparser`, the image
API) are modelled as oracles passed in explicitly; everything else is a direct
transcription of the repository's functions.
-/

set_option maxHeartbeats 1000000

abbrev PyStr := List Char

/-- The whitespace class of Python `str.strip` and of the regex class for
spaces (ASCII fragment). -/
def isPySpace (c : Char) : Bool :=
  c == ' ' || c == '\t' || c == '\n' || c == '\r' || c == '\x0b' || c == '\x0c'

/-- Python `str.strip()` with no argument: drop leading whitespace. -/
def pstripLeft (s : PyStr) : PyStr := s.dropWhile isPySpace

/-- Python `str.strip()` with no argument: drop trailing whitespace. -/
def pstripRight (s : PyStr) : PyStr := (s.reverse.dropWhile isPySpace).reverse

/-- Python `str.strip()`: drop leading and trailing whitespace. -/
def pstrip (s : PyStr) : PyStr := pstripRight (pstripLeft s)

/-- Python `str.lower()` (ASCII fragment). -/
def pyLower (s : PyStr) : PyStr := s.map Char.toLower

/-! ## Freshness classifier (`app/services/fresh_data_service.py`) -/

/-- `FRESH_DATA_KEYWORDS` from `fresh_data_service.py`. -/
def FRESH_DATA_KEYWORDS : List PyStr :=
  ["latest", "recent", "update", "updates", "trends",
   "new", "2024", "2025", "2026",
   "current", "now", "today", "breaking", "news"].map String.data

/-- The word class of the regex metacharacter for word boundaries
(ASCII fragment). -/
def isWordChar (c : Char) : Bool := c.isAlphanum || c == '_'

/-- Does a four-character list match the year alternation
`202[4-9]` or `203[0-9]` of the regex in `needs_fresh_data`? -/
def isYearQuad : PyStr → Bool
  | [c1, c2, c3, c4] =>
      c1 == '2' && c2 == '0' &&
        ((c3 == '2' && '4' ≤ c4 && c4 ≤ '9') || (c3 == '3' && c4.isDigit))
  | _ => false

/-- Does the year pattern (with its right word boundary) match at the very
start of the list? -/
def yearHead : PyStr → Bool
  | c1 :: c2 :: c3 :: c4 :: rest =>
      isYearQuad [c1, c2, c3, c4] &&
        (match rest with | [] => true | c :: _ => !isWordChar c)
  | _ => false

/-- Scan for the year pattern; `p` records whether the character just before
the current position is a word character (the left word boundary). -/
def yearSearchAux (p : Bool) : PyStr → Bool
  | [] => false
  | c :: rest => (!p && yearHead (c :: rest)) || yearSearchAux (isWordChar c) rest

/-- `re.search` of the year pattern with word boundaries on both sides,
as used in `needs_fresh_data`. -/
def hasYear (s : PyStr) : Bool := yearSearchAux false s

/-- Is the first list a prefix of the second? -/
def isPrefixList : PyStr → PyStr → Bool
  | [], _ => true
  | _ :: _, [] => false
  | a :: as, b :: bs => a == b && isPrefixList as bs

/-- Python's substring membership test: does `needle` occur in `hay`? -/
def containsSub (needle : PyStr) : PyStr → Bool
  | [] => needle.isEmpty
  | c :: rest => isPrefixList needle (c :: rest) || containsSub needle rest

/-- `needs_fresh_data` from `fresh_data_service.py`. -/
def needs_fresh_data (topic : PyStr) : Bool :=
  if topic.isEmpty then false
  else
    let topic_lower := pyLower topic
    if FRESH_DATA_KEYWORDS.any fun kw => containsSub kw topic_lower then true
    else if hasYear topic_lower then true
    else false

theorem isPrefixList_iff (n h : PyStr) : isPrefixList n h = true ↔ n <+: h := by
  induction n generalizing h with
  | nil => simp [isPrefixList]
  | cons a as ih =>
    cases h with
    | nil =>
      simp [isPrefixList]
    | cons b bs =>
      simp only [isPrefixList, Bool.and_eq_true, beq_iff_eq, List.cons_prefix_cons, ih]

theorem containsSub_iff (n h : PyStr) : containsSub n h = true ↔ n <:+: h := by
  induction h with
  | nil =>
    simp only [containsSub, List.isEmpty_iff]
    constructor
    · rintro rfl; exact List.infix_refl []
    · intro hinf
      obtain ⟨s, t, hst⟩ := hinf
      have := List.append_eq_nil.mp (List.append_eq_nil.mp hst).1
      exact this.2
  | cons c rest ih =>
    simp only [containsSub, Bool.or_eq_true, isPrefixList_iff, ih, List.infix_cons_iff]

/-! Specification-side characterisation of the regex search: the pattern
matches somewhere in the string, with both word boundaries honoured. -/

/-- The last character of the list is not a word character. -/
def lastNonWord : PyStr → Prop
  | [] => False
  | [c] => isWordChar c = false
  | _ :: c :: rest => lastNonWord (c :: rest)

/-- Left context of a match: either the match is at the start of the string or
the character before it is not a word character. -/
def boundaryLeft (pre : PyStr) : Prop := pre = [] ∨ lastNonWord pre

/-- Right context of a match: either the match is at the end of the string or
the character after it is not a word character. -/
def boundaryRight : PyStr → Prop
  | [] => True
  | c :: _ => isWordChar c = false

/-- Left context during the scan: `p` is whether the character before `pre`
(if `pre` is empty, before the match) is a word character. -/
def preBound (p : Bool) : PyStr → Prop
  | [] => p = false
  | c :: rest => lastNonWord (c :: rest)

/-- A year (2024–2039) occurs in `s` as a whole word. -/
def yearMatchSpec (s : PyStr) : Prop :=
  ∃ pre mid suf, s = pre ++ mid ++ suf ∧ isYearQuad mid = true ∧
    boundaryLeft pre ∧ boundaryRight suf

theorem yearHead_iff (l : PyStr) :
    yearHead l = true ↔
      ∃ mid suf, l = mid ++ suf ∧ isYearQuad mid = true ∧ boundaryRight suf := by
  constructor
  · intro h
    match l, h with
    | c1 :: c2 :: c3 :: c4 :: rest, h =>
      refine ⟨[c1, c2, c3, c4], rest, rfl, ?_, ?_⟩
      · simp only [yearHead, Bool.and_eq_true] at h
        exact h.1
      · simp only [yearHead, Bool.and_eq_true] at h
        cases rest with
        | nil => exact trivial
        | cons c cs =>
          simpa [boundaryRight] using h.2
  · rintro ⟨mid, suf, rfl, hq, hr⟩
    match mid, hq with
    | [c1, c2, c3, c4], hq =>
      cases suf with
      | nil => simp [yearHead, hq]
      | cons c cs =>
        simp only [boundaryRight] at hr
        simp [yearHead, hq, hr]

theorem yearSearchAux_iff (l : PyStr) : ∀ p : Bool,
    (yearSearchAux p l = true ↔
      ∃ pre mid suf, l = pre ++ mid ++ suf ∧ isYearQuad mid = true ∧
        preBound p pre ∧ boundaryRight suf) := by
  induction l with
  | nil =>
    intro p
    simp only [yearSearchAux]
    constructor
    · intro h; exact absurd h (by simp)
    · rintro ⟨pre, mid, suf, h, hq, _, _⟩
      obtain ⟨hpm, -⟩ := List.append_eq_nil.mp h.symm
      obtain ⟨-, hmid⟩ := List.append_eq_nil.mp hpm
      subst hmid
      simp [isYearQuad] at hq
  | cons c rest ih =>
    intro p
    simp only [yearSearchAux, Bool.or_eq_true, Bool.and_eq_true, Bool.not_eq_true']
    constructor
    · rintro (⟨hp, hh⟩ | htail)
      · obtain ⟨mid, suf, heq, hq, hr⟩ := (yearHead_iff _).mp hh
        exact ⟨[], mid, suf, by simpa using heq, hq, hp, hr⟩
      · obtain ⟨pre, mid, suf, heq, hq, hb, hr⟩ := (ih (isWordChar c)).mp htail
        refine ⟨c :: pre, mid, suf, by simp [heq], hq, ?_, hr⟩
        cases pre with
        | nil => simpa [preBound, lastNonWord] using hb
        | cons d ds => simpa [preBound, lastNonWord] using hb
    · rintro ⟨pre, mid, suf, heq, hq, hb, hr⟩
      cases pre with
      | nil =>
        left
        simp only [List.nil_append] at heq
        refine ⟨hb, (yearHead_iff _).mpr ⟨mid, suf, heq, hq, hr⟩⟩
      | cons d ds =>
        right
        simp only [List.cons_append, List.cons.injEq] at heq
        obtain ⟨rfl, heq⟩ := heq
        refine (ih (isWordChar c)).mpr ⟨ds, mid, suf, heq, hq, ?_, hr⟩
        cases ds with
        | nil =>
          simp only [preBound] at hb ⊢
          simpa [lastNonWord] using hb
        | cons e es => simpa [preBound, lastNonWord] using hb

theorem hasYear_iff (s : PyStr) : hasYear s = true ↔ yearMatchSpec s := by
  unfold hasYear yearMatchSpec
  rw [yearSearchAux_iff]
  constructor
  · rintro ⟨pre, mid, suf, heq, hq, hb, hr⟩
    refine ⟨pre, mid, suf, heq, hq, ?_, hr⟩
    cases pre with
    | nil => exact Or.inl rfl
    | cons d ds => exact Or.inr hb
  · rintro ⟨pre, mid, suf, heq, hq, hb, hr⟩
    refine ⟨pre, mid, suf, heq, hq, ?_, hr⟩
    cases pre with
    | nil => rfl
    | cons d ds =>
      rcases hb with h | h
      · exact absurd h (by simp)
      · exact h

/-- **C2.** `needs_fresh_data` returns `false` on the empty topic, and returns
`true` exactly when the lower-cased topic contains one of the fixed freshness
vocabulary terms as a substring or contains a four-digit year in 2024–2039
matched with word boundaries on both sides. -/
theorem C2_needs_fresh_data_characterization :
    needs_fresh_data [] = false ∧
    ∀ t : PyStr, (needs_fresh_data t = true ↔
      ((∃ kw ∈ FRESH_DATA_KEYWORDS, kw <:+: pyLower t) ∨ yearMatchSpec (pyLower t))) := by
  constructor
  · rfl
  · intro t
    unfold needs_fresh_data
    by_cases ht : t.isEmpty
    · have : t = [] := by simpa using ht
      subst this
      simp only [List.isEmpty_nil, if_true]
      constructor
      · intro h; exact absurd h (by simp)
      · rintro (⟨kw, hkw, hinf⟩ | hy)
        · obtain ⟨s, t, hst⟩ := hinf
          have hnil : s = [] ∧ kw = [] ∧ t = [] := by simpa [pyLower] using hst
          obtain ⟨-, hkw0, -⟩ := hnil
          subst hkw0
          simp [FRESH_DATA_KEYWORDS] at hkw
        · obtain ⟨pre, mid, suf, heq, hq, _, _⟩ := hy
          have heq' : pre = [] ∧ mid = [] ∧ suf = [] := by simpa [pyLower] using heq.symm
          obtain ⟨-, hmid, -⟩ := heq'
          subst hmid
          simp [isYearQuad] at hq
    · simp only [ht, if_false]
      constructor
      · intro h
        by_cases hk : FRESH_DATA_KEYWORDS.any fun kw => containsSub kw (pyLower t)
        · left
          obtain ⟨kw, hkw, hinf⟩ := List.any_eq_true.mp hk
          exact ⟨kw, hkw, (containsSub_iff _ _).mp hinf⟩
        · right
          simp only [hk, if_false] at h
          by_cases hy : hasYear (pyLower t)
          · exact (hasYear_iff _).mp hy
          · simp [hy] at h
      · rintro (⟨kw, hkw, hinf⟩ | hy)
        · have hk : (FRESH_DATA_KEYWORDS.any fun kw => containsSub kw (pyLower t)) = true :=
            List.any_eq_true.mpr ⟨kw, hkw, (containsSub_iff _ _).mpr hinf⟩
          simp [hk]
        · have hy' := (hasYear_iff (pyLower t)).mpr hy
          by_cases hk : FRESH_DATA_KEYWORDS.any fun kw => containsSub kw (pyLower t) <;>
            simp [hk, hy']

/-! ## Context builder (`build_fresh_context` in `fresh_data_service.py`) -/

/-- One RSS article, as produced by `fetch_rss_articles`. -/
structure Article where
  title : PyStr
  summary : PyStr
  link : PyStr
  published : PyStr
deriving DecidableEq, Repr

theorem length_dropWhile_le (p : Char → Bool) (l : PyStr) :
    (l.dropWhile p).length ≤ l.length := by
  induction l with
  | nil => simp
  | cons c rest ih =>
    rw [List.dropWhile_cons]
    by_cases h : p c
    · simp only [h, if_true]
      simp only [List.length_cons]
      omega
    · simp [h]

/-- One pass of `re.sub` removing every match of the tag pattern: an opening
angle bracket, one or more characters other than a closing angle bracket, and
the first following closing bracket. Written as a scanner: `buf` holds (in
reverse) the text from an opening bracket that has not yet found its closing
bracket; when the closing bracket arrives the buffered candidate is removed
unless it was empty (the pattern requires at least one inner character, so an
adjacent pair is kept verbatim); a candidate still open at the end of the
string never matched and is kept. -/
def stripTagsGo (buf : Option PyStr) : PyStr → PyStr
  | [] => match buf with | none => [] | some b => b.reverse
  | c :: rest =>
    match buf with
    | none =>
      if c == '<' then stripTagsGo (some [c]) rest
      else c :: stripTagsGo none rest
    | some b =>
      if c == '>' then
        if b.length == 1 then b.reverse ++ '>' :: stripTagsGo none rest
        else stripTagsGo none rest
      else stripTagsGo (some (c :: b)) rest

/-- `re.sub` of the HTML-tag pattern with the empty replacement, as in
`build_fresh_context`. -/
def stripHtmlTags (s : PyStr) : PyStr := stripTagsGo none s

/-- One pass of `re.sub` replacing every maximal run of whitespace by a single
space: a whitespace character is dropped when another whitespace character
follows (the run continues), and becomes the single space when the run ends. -/
def collapseWs : PyStr → PyStr
  | [] => []
  | [c] => if isPySpace c then [' '] else [c]
  | c :: d :: rest =>
    if isPySpace c then
      if isPySpace d then collapseWs (d :: rest)
      else ' ' :: collapseWs (d :: rest)
    else c :: collapseWs (d :: rest)

/-- The summary clean-up of `build_fresh_context`: strip tags, collapse
whitespace, strip, and truncate past 100 characters to 97 plus an ellipsis. -/
def cleanSummary (s : PyStr) : PyStr :=
  let summary := pstrip (collapseWs (stripHtmlTags s))
  if summary.length > 100 then summary.take 97 ++ "...".data else summary

/-- The header block of `build_fresh_context`. -/
def FRESH_HEADER : PyStr := "=== RECENT DATA ===\n".data

/-- The truncation notice of `build_fresh_context`. -/
def TRUNCATION_MARKER : PyStr := "\n[Additional articles omitted due to length constraints]".data

/-- The footer block of `build_fresh_context`. -/
def FRESH_FOOTER : PyStr := "\n=== END DATA ===\n".data

/-- The per-article block of `build_fresh_context`. -/
def articleText (idx : Nat) (a : Article) : PyStr :=
  ['\n'] ++ (Nat.repr idx).data ++ ". ".data ++ a.title ++ ['\n'] ++
    cleanSummary a.summary ++ ['\n']

/-- The accumulation loop of `build_fresh_context`: append each block unless
doing so would push the accumulated text past `max_chars`, in which case
append the truncation notice and stop; the footer is appended either way. -/
def buildLoop (max_chars : Int) : List Article → Nat → PyStr → PyStr
  | [], _, acc => acc ++ FRESH_FOOTER
  | a :: rest, idx, acc =>
    let article_text := articleText idx a
    if (acc.length : Int) + article_text.length > max_chars then
      acc ++ TRUNCATION_MARKER ++ FRESH_FOOTER
    else
      buildLoop max_chars rest (idx + 1) (acc ++ article_text)

/-- `build_fresh_context` from `fresh_data_service.py`. -/
def build_fresh_context (articles : List Article) (max_chars : Int) : PyStr :=
  if articles.isEmpty then [] else buildLoop max_chars articles 1 FRESH_HEADER

theorem buildLoop_length_le (mc : Int) (arts : List Article) (idx : Nat) (acc : PyStr)
    (hacc : (acc.length : Int) ≤ max (FRESH_HEADER.length : Int) mc) :
    ((buildLoop mc arts idx acc).length : Int) ≤
      max (FRESH_HEADER.length : Int) mc +
        TRUNCATION_MARKER.length + FRESH_FOOTER.length := by
  induction arts generalizing idx acc with
  | nil =>
    simp only [buildLoop, List.length_append]
    have hT : (0 : Int) ≤ (TRUNCATION_MARKER.length : Int) := Int.natCast_nonneg _
    push_cast
    omega
  | cons a rest ih =>
    simp only [buildLoop]
    by_cases hgt : (acc.length : Int) + ((articleText idx a).length : Int) > mc
    · simp only [hgt, if_true, List.length_append]
      push_cast
      omega
    · simp only [hgt, if_false]
      refine ih (idx + 1) (acc ++ articleText idx a) ?_
      have hmc : mc ≤ max (FRESH_HEADER.length : Int) mc := le_max_right _ _
      simp only [List.length_append]
      push_cast
      omega

/-- **C3 (counterexample).** The claimed bound `max_chars` plus one truncation
marker fails: with `max_chars = 20` and a single short article, the header (20
characters) already fills the budget, so the truncation notice (56 characters)
and the unconditional footer (18 characters) push the result to 94 characters,
exceeding 20 + 56 = 76. -/
theorem C3_claim_counterexample :
    ¬ ((build_fresh_context [⟨"t".data, "s".data, [], []⟩] 20).length ≤
        20 + TRUNCATION_MARKER.length) := by
  decide

/-- **C3 (amended).** `build_fresh_context` returns the empty string on the
empty article list; otherwise its length is bounded by
`max(header length, max_chars)` plus one truncation marker plus the footer
(the header is placed before any length check and the footer is appended
unconditionally after the truncation notice). -/
theorem C3_build_fresh_context_bound :
    (∀ mc : Int, build_fresh_context [] mc = []) ∧
    ∀ (articles : List Article) (mc : Int),
      ((build_fresh_context articles mc).length : Int) ≤
        max (FRESH_HEADER.length : Int) mc +
          TRUNCATION_MARKER.length + FRESH_FOOTER.length := by
  constructor
  · intro mc; rfl
  · intro articles mc
    unfold build_fresh_context
    by_cases h : articles.isEmpty
    · simp only [h, if_true, List.length_nil, Int.natCast_zero]
      have h1 : (0 : Int) ≤ (FRESH_HEADER.length : Int) := Int.natCast_nonneg _
      have h2 : (0 : Int) ≤ (TRUNCATION_MARKER.length : Int) := Int.natCast_nonneg _
      have h3 : (0 : Int) ≤ (FRESH_FOOTER.length : Int) := Int.natCast_nonneg _
      have h4 : (FRESH_HEADER.length : Int) ≤ max (FRESH_HEADER.length : Int) mc :=
        le_max_left _ _
      omega
    · simp only [h, if_false]
      exact buildLoop_length_le mc articles 1 FRESH_HEADER (le_max_left _ _)

/-! ## Python values and dictionaries

The dynamic values flowing through the services: strings, numbers, booleans,
`None`, lists and (insertion-ordered) dictionaries, i.e. everything
`json.loads` can produce plus `None`. -/

inductive PyVal where
  | vStr (s : PyStr)
  | vNum (n : Int)
  | vBool (b : Bool)
  | vNone
  | vList (xs : List PyVal)
  | vDict (entries : List (PyStr × PyVal))

instance : Inhabited PyVal := ⟨PyVal.vNone⟩

/-- Python `dict.get(k, default)`. -/
def dictGet (es : List (PyStr × PyVal)) (k : PyStr) (default : PyVal) : PyVal :=
  match es.find? fun p => p.1 == k with
  | some p => p.2
  | none => default

/-- Python `k in dict`. -/
def dictHasKey (es : List (PyStr × PyVal)) (k : PyStr) : Bool :=
  es.any fun p => p.1 == k

/-- Python truthiness of a value, as used in `if featured_prompt:`,
`if context:`, `if fresh_context:` and `if not topic:`. -/
def pyTruthy : PyVal → Bool
  | .vStr s => !s.isEmpty
  | .vNum n => !(n == 0)
  | .vBool b => b
  | .vNone => false
  | .vList xs => !xs.isEmpty
  | .vDict es => !es.isEmpty

/-- `json.dumps` escaping for one character (the fragment exercised by this
backend: quote, backslash and the common control characters). -/
def escapeChar (c : Char) : PyStr :=
  if c == '"' then ['\\', '"']
  else if c == '\\' then ['\\', '\\']
  else if c == '\n' then ['\\', 'n']
  else if c == '\t' then ['\\', 't']
  else if c == '\r' then ['\\', 'r']
  else [c]

/-- A serialized JSON string literal. -/
def dumpStr (s : PyStr) : PyStr := ['"'] ++ (s.map escapeChar).flatten ++ ['"']

/-- `", "`-separated concatenation, the default item separator of
`json.dumps`. -/
def joinComma : List PyStr → PyStr
  | [] => []
  | [s] => s
  | s :: rest => s ++ [',', ' '] ++ joinComma rest

mutual
/-- `json.dumps` with default options (modulo the escaping fragment of
`escapeChar`). -/
def dumps : PyVal → PyStr
  | .vStr s => dumpStr s
  | .vNum n => (toString n).data
  | .vBool b => if b then "true".data else "false".data
  | .vNone => "null".data
  | .vList xs => ['['] ++ joinComma (dumpsList xs) ++ [']']
  | .vDict es => ['\x7b'] ++ joinComma (dumpsEntries es) ++ ['\x7d']

def dumpsList : List PyVal → List PyStr
  | [] => []
  | v :: vs => dumps v :: dumpsList vs

def dumpsEntries : List (PyStr × PyVal) → List PyStr
  | [] => []
  | (k, v) :: es => (dumpStr k ++ [':', ' '] ++ dumps v) :: dumpsEntries es
end

/-! ## Response normalizer (`generate_json_response` in `ollama_service.py`)

`json.loads` is an external collaborator; it enters as an oracle
`parse : PyStr → Option PyVal` (`none` models a raised decode error). -/

/-- Is the first list a suffix of the second? -/
def isSuffixList (n h : PyStr) : Bool := isPrefixList n.reverse h.reverse

/-- `if text_clean.startswith("```json"): text_clean = text_clean[7:]`. -/
def dropLeadFenceJson (t : PyStr) : PyStr :=
  if isPrefixList "```json".data t then t.drop 7 else t

/-- `if text_clean.startswith("```"): text_clean = text_clean[3:]`. -/
def dropLeadFenceBare (t : PyStr) : PyStr :=
  if isPrefixList "```".data t then t.drop 3 else t

/-- `if text_clean.endswith("```"): text_clean = text_clean[:-3]`. -/
def dropTrailFence (t : PyStr) : PyStr :=
  if isSuffixList "```".data t then t.take (t.length - 3) else t

/-- The clean-up step of `generate_json_response` (lines 157–164): strip,
drop a leading language-tagged fence marker, drop a leading bare fence
marker, drop a trailing fence marker, strip again. -/
def stripJsonFences (generated_text : PyStr) : PyStr :=
  pstrip (dropTrailFence (dropLeadFenceBare (dropLeadFenceJson (pstrip generated_text))))

/-- The normalization step of `generate_json_response` (lines 156–170): parse
the fence-stripped text; on success return the parsed value, on a parse
failure return the degraded dictionary carrying the untouched original text
under the reserved key. -/
def generate_json_response_normalize (parse : PyStr → Option PyVal)
    (generated_text : PyStr) : PyVal :=
  match parse (stripJsonFences generated_text) with
  | some v => v
  | none => .vDict [("raw".data, .vStr generated_text)]

/-! Facts about `pstrip` needed for the fence-stripping analysis. -/

theorem dropWhile_head_false (p : Char → Bool) (l : PyStr) (c : Char) (t : PyStr)
    (h : l.dropWhile p = c :: t) : p c = false := by
  induction l with
  | nil => simp at h
  | cons a as ih =>
    rw [List.dropWhile_cons] at h
    by_cases hp : p a
    · exact ih (by simpa [hp] using h)
    · obtain ⟨rfl, -⟩ := List.cons.injEq .. ▸ (by simpa [hp] using h : a :: as = c :: t)
      simpa using hp

theorem dropWhile_suffix (p : Char → Bool) (l : PyStr) : l.dropWhile p <:+ l := by
  induction l with
  | nil => simp
  | cons a as ih =>
    rw [List.dropWhile_cons]
    by_cases hp : p a
    · simpa [hp] using ih.trans (List.suffix_cons a as)
    · simp [hp]

theorem pstripLeft_eq_self (s : PyStr)
    (h : ∀ c, s.head? = some c → isPySpace c = false) : pstripLeft s = s := by
  cases s with
  | nil => rfl
  | cons c t => exact List.dropWhile_cons_of_neg (by simp [h c rfl])

theorem pstripRight_eq_self (s : PyStr)
    (h : ∀ c, s.getLast? = some c → isPySpace c = false) : pstripRight s = s := by
  unfold pstripRight
  cases hrev : s.reverse with
  | nil => simp [List.reverse_eq_nil_iff.mp hrev]
  | cons c t =>
    have hc : s.getLast? = some c := by
      rw [← List.head?_reverse, hrev]; rfl
    rw [List.dropWhile_cons_of_neg (by simp [h c hc]), ← hrev, List.reverse_reverse]

theorem pstrip_eq_self (s : PyStr)
    (hh : ∀ c, s.head? = some c → isPySpace c = false)
    (hl : ∀ c, s.getLast? = some c → isPySpace c = false) : pstrip s = s := by
  rw [pstrip, pstripLeft_eq_self s hh, pstripRight_eq_self s hl]

theorem pstripRight_prefixOf (s : PyStr) : pstripRight s <+: s := by
  have h := dropWhile_suffix isPySpace s.reverse
  rw [show s.reverse.dropWhile isPySpace = (pstripRight s).reverse by
        simp [pstripRight]] at h
  exact List.reverse_suffix.mp (by simpa using h)

theorem pstrip_head_nonspace (s : PyStr) (c : Char) (t : PyStr)
    (h : pstrip s = c :: t) : isPySpace c = false := by
  have hpre : pstrip s <+: pstripLeft s := pstripRight_prefixOf (pstripLeft s)
  rw [h] at hpre
  obtain ⟨u, hu⟩ := hpre
  exact dropWhile_head_false isPySpace s c (t ++ u) (by simpa using hu.symm)

theorem pstrip_getLast_nonspace (s : PyStr) (c : Char)
    (h : (pstrip s).getLast? = some c) : isPySpace c = false := by
  have hrev : (pstrip s).reverse = (pstripLeft s).reverse.dropWhile isPySpace := by
    simp [pstrip, pstripRight]
  have hc : (pstrip s).reverse.head? = some c := by
    rw [List.head?_reverse]; exact h
  rw [hrev] at hc
  cases hd : (pstripLeft s).reverse.dropWhile isPySpace with
  | nil => rw [hd] at hc; simp at hc
  | cons d u =>
    rw [hd] at hc
    obtain rfl : d = c := by simpa using hc
    exact dropWhile_head_false isPySpace (pstripLeft s).reverse d u hd

theorem pstrip_idem (s : PyStr) : pstrip (pstrip s) = pstrip s := by
  refine pstrip_eq_self (pstrip s) ?_ ?_
  · intro c hc
    cases hs : pstrip s with
    | nil => rw [hs] at hc; simp at hc
    | cons d t =>
      rw [hs] at hc
      obtain rfl : d = c := by simpa using hc
      exact pstrip_head_nonspace s d t hs
  · intro c hc
    exact pstrip_getLast_nonspace s c hc

theorem pstrip_cons_space (c : Char) (s : PyStr) (h : isPySpace c = true) :
    pstrip (c :: s) = pstrip s := by
  simp [pstrip, pstripLeft, List.dropWhile_cons_of_pos h]

theorem pstripRight_append_space (s : PyStr) (c : Char) (h : isPySpace c = true) :
    pstripRight (s ++ [c]) = pstripRight s := by
  simp [pstripRight, List.dropWhile_cons_of_pos h]

theorem pstrip_append_space (s : PyStr) (c : Char) (h : isPySpace c = true) :
    pstrip (s ++ [c]) = pstrip s := by
  unfold pstrip
  rw [show pstripLeft (s ++ [c]) = (s ++ [c]).dropWhile isPySpace from rfl,
    List.dropWhile_append]
  by_cases he : (s.dropWhile isPySpace).isEmpty
  · have h1 : pstripLeft s = [] := by simpa [pstripLeft] using he
    simp [he, h1, List.dropWhile_cons_of_pos h, pstripRight]
  · rw [if_neg he]
    exact pstripRight_append_space (pstripLeft s) c h

/-- **C1.** The normalization step of `generate_json_response` is a total
function of the generated text: whenever the fence-stripped, trimmed text
parses, the parsed object is returned, and on any parse failure the result is
the dictionary with the single reserved key `raw` holding the untouched
original generated text (before fence stripping). -/
theorem C1_normalizer_never_raises :
    ∀ (parse : PyStr → Option PyVal) (generated_text : PyStr),
      (∀ v, parse (stripJsonFences generated_text) = some v →
        generate_json_response_normalize parse generated_text = v) ∧
      (parse (stripJsonFences generated_text) = none →
        generate_json_response_normalize parse generated_text =
          PyVal.vDict [("raw".data, PyVal.vStr generated_text)]) := by
  intro parse t
  constructor
  · intro v hv
    simp [generate_json_response_normalize, hv]
  · intro hn
    simp [generate_json_response_normalize, hn]

/-- A concrete stand-in for the `json.loads` oracle: parses exactly the text
`7`. -/
def wParse : PyStr → Option PyVal :=
  fun t => if t = ['7'] then some (PyVal.vNum 7) else none

theorem C1_normalizer_never_raises_witness :
    wParse (stripJsonFences "```json\n7\n```".data) = some (PyVal.vNum 7) ∧
    generate_json_response_normalize wParse "```json\n7\n```".data = PyVal.vNum 7 ∧
    wParse (stripJsonFences "this is not json".data) = none ∧
    generate_json_response_normalize wParse "this is not json".data =
      PyVal.vDict [("raw".data, PyVal.vStr "this is not json".data)] :=
  ⟨rfl, (C1_normalizer_never_raises wParse _).1 _ rfl, rfl,
    (C1_normalizer_never_raises wParse _).2 rfl⟩

theorem stripJsonFences_wrapped (s : PyStr) :
    stripJsonFences ("```json\n".data ++ s ++ "\n```".data) = pstrip s := by
  have hWcons :
      "```json\n".data ++ s ++ "\n```".data =
        '\x60' :: ("``json\n".data ++ s ++ "\n```".data) := by
    simp [show ("```json\n".data : PyStr) = '\x60' :: "``json\n".data from rfl]
  have hLast :
      ("```json\n".data ++ s ++ "\n```".data).getLast? = some '\x60' := by
    rw [List.getLast?_append]
    rfl
  have hW : pstrip ("```json\n".data ++ s ++ "\n```".data) =
      "```json\n".data ++ s ++ "\n```".data := by
    refine pstrip_eq_self _ ?_ ?_
    · intro c hc
      rw [hWcons] at hc
      obtain rfl : '\x60' = c := by simpa using hc
      decide
    · intro c hc
      rw [hLast] at hc
      have hcc : '\x60' = c := by simpa using hc
      subst hcc
      decide
  have h1 : dropLeadFenceJson ("```json\n".data ++ s ++ "\n```".data) =
      '\n' :: (s ++ "\n```".data) := by
    unfold dropLeadFenceJson
    rw [if_pos]
    · rw [List.append_assoc,
        show ("```json\n".data : PyStr) = "```json".data ++ ['\n'] from rfl,
        List.append_assoc,
        show (7 : Nat) = ("```json".data : PyStr).length from rfl,
        List.drop_left]
      simp
    · refine (isPrefixList_iff _ _).mpr ?_
      rw [List.append_assoc]
      exact ((isPrefixList_iff "```json".data "```json\n".data).mp rfl).trans
        (List.prefix_append _ (s ++ "\n```".data))
  have h2 : dropLeadFenceBare ('\n' :: (s ++ "\n```".data)) =
      '\n' :: (s ++ "\n```".data) := by
    unfold dropLeadFenceBare
    rw [if_neg]
    intro hcon
    have := (isPrefixList_iff _ _).mp hcon
    rw [show ("```".data : PyStr) = '\x60' :: "``".data from rfl] at this
    obtain ⟨h60, -⟩ := List.cons_prefix_cons.mp this
    exact absurd h60 (by decide)
  have h3 : dropTrailFence ('\n' :: (s ++ "\n```".data)) = '\n' :: (s ++ ['\n']) := by
    unfold dropTrailFence
    rw [if_pos]
    · have hlen : ('\n' :: (s ++ "\n```".data)).length - 3 = s.length + 2 := by
        simp only [List.length_cons, List.length_append,
          show ("\n```".data : PyStr).length = 4 from rfl]
        omega
      rw [hlen, List.take_succ_cons, List.take_append_eq_append_take,
        List.take_of_length_le (by omega),
        show s.length + 1 - s.length = 1 by omega,
        show ("\n```".data : PyStr).take 1 = ['\n'] from rfl]
    · unfold isSuffixList
      have hrev : ('\n' :: (s ++ "\n```".data)).reverse =
          ("\n```".data : PyStr).reverse ++ (s.reverse ++ ['\n']) := by
        simp
      rw [hrev,
        show ("\n```".data : PyStr).reverse = '\x60' :: '\x60' :: '\x60' :: ['\n'] from rfl,
        show ("```".data : PyStr).reverse = '\x60' :: '\x60' :: '\x60' :: [] from rfl]
      simp [isPrefixList]
  rw [stripJsonFences, hW, h1, h2, h3,
    pstrip_cons_space '\n' _ (by decide), pstrip_append_space _ '\n' (by decide)]

theorem stripJsonFences_unfenced (s : PyStr)
    (hpre : isPrefixList "```".data (pstrip s) = false)
    (hsuf : isSuffixList "```".data (pstrip s) = false) :
    stripJsonFences s = pstrip s := by
  have hjson : isPrefixList "```json".data (pstrip s) = false := by
    by_contra hcon
    have h1 : "```json".data <+: pstrip s :=
      (isPrefixList_iff _ _).mp (by simpa using hcon)
    have h2 : ("```".data : PyStr) <+: "```json".data :=
      (isPrefixList_iff "```".data "```json".data).mp rfl
    have := (isPrefixList_iff "```".data (pstrip s)).mpr (h2.trans h1)
    rw [hpre] at this
    exact absurd this (by simp)
  rw [stripJsonFences, dropLeadFenceJson, if_neg (by simp [hjson]),
    dropLeadFenceBare, if_neg (by simp [hpre]),
    dropTrailFence, if_neg (by simp [hsuf]), pstrip_idem]

/-- **C4.** On well-formed JSON text the normalizer is insensitive to a
code fence: provided the parse oracle succeeds on `s`, is insensitive to
surrounding whitespace (as `json.loads` is), and the trimmed `s` neither
starts nor ends with a fence marker (no JSON text does), normalizing the
fence-wrapped text and normalizing the bare text both yield exactly the
parsed object. -/
theorem C4_fence_wrap_parse_agree :
    ∀ (parse : PyStr → Option PyVal) (s : PyStr) (j : PyVal),
      parse (pstrip s) = parse s →
      parse s = some j →
      isPrefixList "```".data (pstrip s) = false →
      isSuffixList "```".data (pstrip s) = false →
      generate_json_response_normalize parse ("```json\n".data ++ s ++ "\n```".data) = j ∧
      generate_json_response_normalize parse s = j := by
  intro parse s j htrim hj hpre hsuf
  constructor
  · rw [generate_json_response_normalize, stripJsonFences_wrapped, htrim, hj]
  · rw [generate_json_response_normalize, stripJsonFences_unfenced s hpre hsuf, htrim, hj]

theorem C4_fence_wrap_parse_agree_witness :
    wParse (pstrip "7".data) = wParse "7".data ∧
    wParse "7".data = some (PyVal.vNum 7) ∧
    isPrefixList "```".data (pstrip "7".data) = false ∧
    isSuffixList "```".data (pstrip "7".data) = false ∧
    generate_json_response_normalize wParse ("```json\n".data ++ "7".data ++ "\n```".data) =
      PyVal.vNum 7 ∧
    generate_json_response_normalize wParse "7".data = PyVal.vNum 7 :=
  ⟨rfl, rfl, rfl, rfl,
    (C4_fence_wrap_parse_agree wParse "7".data (PyVal.vNum 7) rfl rfl rfl rfl).1,
    (C4_fence_wrap_parse_agree wParse "7".data (PyVal.vNum 7) rfl rfl rfl rfl).2⟩

/-! ## Text generation client (`generate_text` in `ollama_service.py`)

The HTTP stack (`requests.post`, `raise_for_status`, `response.json()`) is an
external collaborator, abstracted as an oracle mapping the full prompt that
would be posted to the outcome of the exchange. Sampling parameters ride
along in the payload and are absorbed by the oracle. -/

/-- A raised Python exception as observed by callers: either the generic
`Exception(error_msg)` raised by the handlers in `generate_text`, or an
`AttributeError` that none of its handlers catch. -/
inductive PyErr where
  | exc (msg : PyStr)
  | attrError
deriving DecidableEq

/-- Outcome of the single post: a timeout, a `RequestException` (which
includes the `HTTPError` that `raise_for_status` raises on a bad status), a
body that is not JSON (`response.json()` raises a decode error carrying a
message), or a decoded JSON body. -/
inductive PostResult where
  | timeout
  | reqError (msg : PyStr)
  | badJson (msg : PyStr)
  | jsonBody (v : PyVal)

/-- The prompt-assembly step of `generate_text`: system text first,
blank-line separated, when a truthy system prompt is given. -/
def build_full_prompt (prompt : PyStr) (system_prompt : Option PyStr) : PyStr :=
  match system_prompt with
  | some sp => if sp.isEmpty then prompt else sp ++ "\n\n".data ++ prompt
  | none => prompt

/-- `generate_text` from `ollama_service.py`: build the full prompt, perform
the single post, and on success read the `response` field with an empty
default and strip it. The three handlers wrap timeout, transport and decode
failures into `Exception`s carrying the cause; reading a field of a non-dict
body or stripping a non-string field raises an uncaught `AttributeError`. -/
def generate_text (net : PyStr → PostResult) (prompt : PyStr)
    (system_prompt : Option PyStr) : Except PyErr PyStr :=
  let full_prompt := build_full_prompt prompt system_prompt
  match net full_prompt with
  | .timeout => .error (.exc "Ollama API timeout after 300 seconds".data)
  | .reqError m => .error (.exc ("Ollama API request failed: ".data ++ m))
  | .badJson m => .error (.exc ("Failed to parse Ollama response: ".data ++ m))
  | .jsonBody v =>
    match v with
    | .vDict es =>
      match dictGet es "response".data (.vStr []) with
      | .vStr s => .ok (pstrip s)
      | _ => .error .attrError
    | _ => .error .attrError

/-- `generate_json_response` from `ollama_service.py`: `generate_text`, then
the never-raising normalization step. -/
def generate_json_response (parse : PyStr → Option PyVal) (net : PyStr → PostResult)
    (prompt : PyStr) (system_prompt : Option PyStr) : Except PyErr PyVal :=
  match generate_text net prompt system_prompt with
  | .error e => .error e
  | .ok generated_text => .ok (generate_json_response_normalize parse generated_text)

/-- **C5 (counterexample).** A well-formed JSON envelope that lacks the
`response` field does not surface an error: `result.get("response", "")`
silently defaults, and `generate_text` returns the empty string as if
generation had succeeded. -/
theorem C5_claim_counterexample :
    generate_text (fun _ => .jsonBody (.vDict [("model".data, PyVal.vStr "m".data)]))
      "p".data none = .ok [] := rfl

/-- **C5 (amended).** Timeout, transport error and an unparseable (non-JSON)
response body each surface as a generic generation-failed exception carrying
the underlying cause, with no retry (the embedding performs exactly one
exchange by construction); but a well-formed JSON envelope lacking the
`response` field is not an error: the field defaults to the empty string and
the call returns the empty string. -/
theorem C5_generate_text_failure_modes :
    ∀ (net : PyStr → PostResult) (prompt : PyStr) (sp : Option PyStr),
      (net (build_full_prompt prompt sp) = .timeout →
        generate_text net prompt sp =
          .error (.exc "Ollama API timeout after 300 seconds".data)) ∧
      (∀ m, net (build_full_prompt prompt sp) = .reqError m →
        generate_text net prompt sp =
          .error (.exc ("Ollama API request failed: ".data ++ m))) ∧
      (∀ m, net (build_full_prompt prompt sp) = .badJson m →
        generate_text net prompt sp =
          .error (.exc ("Failed to parse Ollama response: ".data ++ m))) ∧
      (∀ es, net (build_full_prompt prompt sp) = .jsonBody (.vDict es) →
        dictHasKey es "response".data = false →
        generate_text net prompt sp = .ok []) := by
  intro net prompt sp
  refine ⟨?_, ?_, ?_, ?_⟩
  · intro h; simp [generate_text, h]
  · intro m h; simp [generate_text, h]
  · intro m h; simp [generate_text, h]
  · intro es h hkey
    have hfind : es.find? (fun p => p.1 == "response".data) = none := by
      rw [List.find?_eq_none]
      rintro ⟨a, b⟩ hp
      simp only [dictHasKey] at hkey
      have hnot := List.any_eq_false.mp hkey (a, b) hp
      simpa using hnot
    simp [generate_text, h, dictGet, hfind, pstrip, pstripLeft, pstripRight]

theorem C5_generate_text_failure_modes_witness :
    (fun _ : PyStr => PostResult.timeout) "p".data = PostResult.timeout ∧
    generate_text (fun _ => PostResult.timeout) "p".data none =
      .error (.exc "Ollama API timeout after 300 seconds".data) ∧
    generate_text (fun _ => PostResult.reqError "boom".data) "p".data none =
      .error (.exc ("Ollama API request failed: ".data ++ "boom".data)) ∧
    generate_text (fun _ => PostResult.badJson "bad".data) "p".data none =
      .error (.exc ("Failed to parse Ollama response: ".data ++ "bad".data)) ∧
    generate_text (fun _ => PostResult.jsonBody (.vDict [])) "p".data none = .ok [] :=
  ⟨rfl,
    (C5_generate_text_failure_modes (fun _ => .timeout) "p".data none).1 rfl,
    (C5_generate_text_failure_modes (fun _ => .reqError "boom".data) "p".data none).2.1
      "boom".data rfl,
    (C5_generate_text_failure_modes (fun _ => .badJson "bad".data) "p".data none).2.2.1
      "bad".data rfl,
    (C5_generate_text_failure_modes (fun _ => .jsonBody (.vDict [])) "p".data none).2.2.2
      [] rfl rfl⟩

/-! ## Keyword service (`keyword_service.py`, `keyword_model.py`) -/

/-- Membership lookup on an insertion-ordered dictionary. -/
def pyDictFind? {α : Type} (es : List (PyStr × α)) (k : PyStr) : Option α :=
  (es.find? fun p => p.1 == k).map fun p => p.2

/-- Python `k in dict` over an arbitrary value type. -/
def pyDictHasKey {α : Type} (es : List (PyStr × α)) (k : PyStr) : Bool :=
  es.any fun p => p.1 == k

/-- Python `dict[k] = v` over an arbitrary value type. -/
def pyDictAssign {α : Type} (es : List (PyStr × α)) (k : PyStr) (v : α) :
    List (PyStr × α) :=
  if pyDictHasKey es k then es.map fun p => if p.1 == k then (k, v) else p
  else es ++ [(k, v)]

/-- A Python dict comprehension over a list of keys: entries are
inserted left to right, a repeated key overwriting its earlier entry in
place. -/
def dictComprehension {α : Type} (f : PyStr → α) (keys : List PyStr) :
    List (PyStr × α) :=
  keys.foldl (fun acc kw => pyDictAssign acc kw (f kw)) []

/-- `KeywordRequest` from `keyword_model.py`. -/
structure KeywordRequest where
  niche : PyStr
  keywords : List PyStr

/-- `KeywordResponse` from `keyword_model.py` (`traffic_data` defaults to
absent). -/
structure KeywordResponse where
  niche : PyStr
  keywords : List PyStr
  traffic_data : Option (List (PyStr × Int)) := none

/-- `process_keywords` from `keyword_service.py`: placeholder traffic data
`len(kw) * 100` per keyword, niche and keywords passed through. -/
def process_keywords (request : KeywordRequest) : KeywordResponse :=
  let dummy_traffic := dictComprehension (fun kw => (kw.length : Int) * 100) request.keywords
  { niche := request.niche
    keywords := request.keywords
    traffic_data := some dummy_traffic }

theorem find?_eq_none_of_any_false {α : Type} (p : PyStr × α → Bool) :
    ∀ es : List (PyStr × α), es.any p = false → es.find? p = none := by
  intro es
  induction es with
  | nil => intro h; rfl
  | cons a t ih =>
    intro h
    rw [List.any_cons] at h
    obtain ⟨h1, h2⟩ := Bool.or_eq_false_iff.mp h
    rw [@List.find?_cons_of_neg _ p a t (by simp [h1])]
    exact ih h2

theorem find?_append_of_none {α : Type} (p : PyStr × α → Bool)
    (es l : List (PyStr × α)) (h : es.find? p = none) :
    (es ++ l).find? p = l.find? p := by
  induction es with
  | nil => simp
  | cons a t ih =>
    by_cases hp : p a
    · rw [List.find?_cons_of_pos _ hp] at h
      exact absurd h (by simp)
    · rw [List.find?_cons_of_neg _ hp] at h
      rw [List.cons_append, List.find?_cons_of_neg _ hp]
      exact ih h

theorem find?_append_of_some {α : Type} (p : PyStr × α → Bool)
    (es l : List (PyStr × α)) (x : PyStr × α) (h : es.find? p = some x) :
    (es ++ l).find? p = some x := by
  induction es with
  | nil => simp at h
  | cons a t ih =>
    by_cases hp : p a
    · rw [List.find?_cons_of_pos _ hp] at h
      rw [List.cons_append, List.find?_cons_of_pos _ hp]
      exact h
    · rw [List.find?_cons_of_neg _ hp] at h
      rw [List.cons_append, List.find?_cons_of_neg _ hp]
      exact ih h

theorem pyDictFind?_assign_same {α : Type} (k : PyStr) (v : α) :
    ∀ es : List (PyStr × α), pyDictHasKey es k = true →
      pyDictFind? (es.map fun p => if p.1 == k then (k, v) else p) k = some v := by
  intro es
  induction es with
  | nil => intro h; simp [pyDictHasKey] at h
  | cons a t ih =>
    intro h
    rw [List.map_cons]
    by_cases hk : (a.1 == k) = true
    · rw [if_pos hk]
      unfold pyDictFind?
      rw [List.find?_cons_of_pos _ (by simp)]
      rfl
    · rw [if_neg hk]
      have ht : pyDictHasKey t k = true := by
        simp only [pyDictHasKey, List.any_cons] at h
        rcases Bool.or_eq_true_iff.mp h with h1 | h1
        · exact absurd h1 hk
        · exact h1
      unfold pyDictFind? at ih ⊢
      rw [@List.find?_cons_of_neg _ (fun q => q.1 == k) a _ hk]
      exact ih ht

theorem pyDictFind?_assign_other {α : Type} (k k' : PyStr) (v : α) (hne : k' ≠ k) :
    ∀ es : List (PyStr × α),
      pyDictFind? (es.map fun p => if p.1 == k then (k, v) else p) k' =
        pyDictFind? es k' := by
  intro es
  induction es with
  | nil => rfl
  | cons a t ih =>
    rw [List.map_cons]
    by_cases hk : (a.1 == k) = true
    · rw [if_pos hk]
      have hkk : ((k, v).1 == k') = false := by
        simp only [beq_eq_false_iff_ne]
        exact fun hc => hne hc.symm
      have hak : (a.1 == k') = false := by
        have ha : a.1 = k := by simpa using hk
        rw [ha]
        simpa using hkk
      unfold pyDictFind? at ih ⊢
      rw [List.find?_cons_of_neg _ (by simp [hkk]), List.find?_cons_of_neg _ (by simp [hak])]
      exact ih
    · rw [if_neg hk]
      by_cases hk' : (a.1 == k') = true
      · unfold pyDictFind?
        rw [@List.find?_cons_of_pos _ (fun q => q.1 == k') a _ hk',
          @List.find?_cons_of_pos _ (fun q => q.1 == k') a _ hk']
      · unfold pyDictFind? at ih ⊢
        rw [@List.find?_cons_of_neg _ (fun q => q.1 == k') a _ hk',
          @List.find?_cons_of_neg _ (fun q => q.1 == k') a _ hk']
        exact ih

theorem pyDictFind?_assign {α : Type} (es : List (PyStr × α)) (k k' : PyStr) (v : α) :
    pyDictFind? (pyDictAssign es k v) k' =
      if k' = k then some v else pyDictFind? es k' := by
  unfold pyDictAssign
  by_cases hk : pyDictHasKey es k
  · rw [if_pos hk]
    by_cases he : k' = k
    · subst he
      rw [if_pos rfl]
      exact pyDictFind?_assign_same k' v es hk
    · rw [if_neg he]
      exact pyDictFind?_assign_other k k' v he es
  · rw [if_neg hk]
    have hkf : es.any (fun p => p.1 == k) = false := by
      cases hb : es.any (fun p => p.1 == k) with
      | false => rfl
      | true => exact absurd (show pyDictHasKey es k = true from hb) hk
    have hnone : es.find? (fun p => p.1 == k) = none :=
      find?_eq_none_of_any_false _ es hkf
    by_cases he : k' = k
    · subst he
      rw [if_pos rfl]
      unfold pyDictFind?
      rw [find?_append_of_none _ es _ hnone, List.find?_cons_of_pos _ (by simp)]
      rfl
    · rw [if_neg he]
      unfold pyDictFind?
      cases hfind : es.find? (fun p => p.1 == k') with
      | none =>
        have hno : ¬ ((k, v).1 == k') = true := by
          intro hc
          have hkk : k = k' := by simpa using hc
          exact he hkk.symm
        rw [find?_append_of_none _ es _ hfind,
          @List.find?_cons_of_neg _ (fun q => q.1 == k') (k, v) [] hno]
        rfl
      | some x =>
        rw [find?_append_of_some _ es _ x hfind]

theorem dictComprehension_find {α : Type} (f : PyStr → α) :
    ∀ (keys : List PyStr) (acc : List (PyStr × α)) (k : PyStr),
      pyDictFind? (keys.foldl (fun acc kw => pyDictAssign acc kw (f kw)) acc) k =
        if k ∈ keys then some (f k) else pyDictFind? acc k := by
  intro keys
  induction keys with
  | nil => intro acc k; simp
  | cons kw keys ih =>
    intro acc k
    rw [List.foldl_cons, ih]
    by_cases hk : k ∈ keys
    · simp [hk]
    · rw [if_neg hk, pyDictFind?_assign]
      by_cases he : k = kw
      · subst he; simp
      · simp [he, hk]

/-- **C10.** `process_keywords` is a total function returning the request's
niche and keyword list unchanged, and a present `traffic_data` mapping that
assigns to every keyword of the request the placeholder value
`len(keyword) * 100` — no external lookup enters the computation. -/
theorem C10_process_keywords_spec :
    ∀ req : KeywordRequest,
      (process_keywords req).niche = req.niche ∧
      (process_keywords req).keywords = req.keywords ∧
      ∃ td, (process_keywords req).traffic_data = some td ∧
        ∀ kw ∈ req.keywords, pyDictFind? td kw = some ((kw.length : Int) * 100) := by
  intro req
  refine ⟨rfl, rfl, dictComprehension (fun kw => (kw.length : Int) * 100) req.keywords,
    rfl, ?_⟩
  intro kw hkw
  rw [dictComprehension, dictComprehension_find, if_pos hkw]

theorem C10_process_keywords_spec_witness :
    (process_keywords ⟨"tech".data, ["seo".data, "crm tools".data]⟩).niche = "tech".data ∧
    ∃ td, (process_keywords ⟨"tech".data, ["seo".data, "crm tools".data]⟩).traffic_data =
        some td ∧
      pyDictFind? td "seo".data = some 300 ∧ pyDictFind? td "crm tools".data = some 900 := by
  obtain ⟨h1, -, td, htd, hall⟩ :=
    C10_process_keywords_spec ⟨"tech".data, ["seo".data, "crm tools".data]⟩
  exact ⟨h1, td, htd,
    by simpa using hall "seo".data (by simp),
    by simpa using hall "crm tools".data (by simp)⟩

/-! ## Article fetcher (`fetch_rss_articles` in `fresh_data_service.py`)

`feedparser` is an external collaborator: per source URL it either raises (the
`except` branch), or yields a feed whose `bozo` flag may be set, with a list
of entries exposing optional fields. -/

/-- One feed entry as seen through `entry.get(...)`. -/
structure RssEntry where
  title? : Option PyStr
  summary? : Option PyStr
  description? : Option PyStr
  link? : Option PyStr
  published? : Option PyStr
  updated? : Option PyStr

/-- Outcome of `feedparser.parse` on one source. -/
inductive FeedResult where
  | failure
  | parsed (bozo : Bool) (entries : List RssEntry)

/-- `RSS_FEEDS` from `fresh_data_service.py`. -/
def RSS_FEEDS : List PyStr :=
  ["https://wordpress.org/news/feed/",
   "https://developers.google.com/search/blog/rss.xml",
   "https://www.searchenginejournal.com/feed/",
   "https://www.searchenginewatch.com/feed/"].map String.data

/-- The article dictionary built for one entry (lines 82–87): stripped title,
stripped summary with description fallback, stripped link, and published with
updated fallback (not stripped). -/
def entryArticle (e : RssEntry) : Article :=
  { title := pstrip (e.title?.getD [])
    summary := pstrip (e.summary?.getD (e.description?.getD []))
    link := pstrip (e.link?.getD [])
    published := e.published?.getD (e.updated?.getD []) }

/-- The kept articles of one source: none when parsing raised or the `bozo`
flag is set; otherwise the first `max_items` entries in feed order, keeping
an entry only when both its stripped title and stripped summary are
non-empty. -/
def feedArticles (fr : FeedResult) (max_items : Nat) : List Article :=
  match fr with
  | .failure => []
  | .parsed true _ => []
  | .parsed false entries =>
    ((entries.take max_items).map entryArticle).filter fun a =>
      !a.title.isEmpty && !a.summary.isEmpty

/-- The source loop of `fetch_rss_articles`, accumulating `all_articles`. -/
def fetchLoop (feedOf : PyStr → FeedResult) (max_items : Nat) :
    List PyStr → List Article → List Article
  | [], acc => acc
  | url :: rest, acc =>
    match feedOf url with
    | .failure => fetchLoop feedOf max_items rest acc
    | .parsed true _ => fetchLoop feedOf max_items rest acc
    | .parsed false entries =>
      fetchLoop feedOf max_items rest
        (acc ++ ((entries.take max_items).map entryArticle).filter fun a =>
          !a.title.isEmpty && !a.summary.isEmpty)

/-- `fetch_rss_articles` from `fresh_data_service.py`. -/
def fetch_rss_articles (feedOf : PyStr → FeedResult) (max_items : Nat) : List Article :=
  fetchLoop feedOf max_items RSS_FEEDS []

theorem fetchLoop_eq_append (feedOf : PyStr → FeedResult) (n : Nat) :
    ∀ (urls : List PyStr) (acc : List Article),
      fetchLoop feedOf n urls acc = acc ++ fetchLoop feedOf n urls [] := by
  intro urls
  induction urls with
  | nil => intro acc; simp [fetchLoop]
  | cons url rest ih =>
    intro acc
    cases hf : feedOf url with
    | failure => simp only [fetchLoop, hf]; exact ih acc
    | parsed bozo entries =>
      cases bozo with
      | true => simp only [fetchLoop, hf]; exact ih acc
      | false =>
        simp only [fetchLoop, hf]
        rw [ih (acc ++ _), ih ([] ++ _)]
        simp

theorem fetchLoop_flatten (feedOf : PyStr → FeedResult) (n : Nat) :
    ∀ urls : List PyStr,
      fetchLoop feedOf n urls [] =
        (urls.map fun u => feedArticles (feedOf u) n).flatten := by
  intro urls
  induction urls with
  | nil => rfl
  | cons url rest ih =>
    cases hf : feedOf url with
    | failure => simp [fetchLoop, hf, feedArticles, ih]
    | parsed bozo entries =>
      cases bozo with
      | true => simp [fetchLoop, hf, feedArticles, ih]
      | false =>
        simp only [fetchLoop, hf, List.map_cons, List.flatten_cons, List.nil_append]
        rw [fetchLoop_eq_append, ih]
        rfl

theorem isEmpty_false_iff_ne_nil (l : PyStr) : l.isEmpty = false ↔ l ≠ [] := by
  cases l <;> simp

/-- **C8.** `fetch_rss_articles` concatenates, in source-list order, the
per-source results: a source that raised or parsed with the `bozo` flag
contributes nothing (and does not abort the others); a cleanly parsed source
contributes, in feed order, at most `max_items` entries, an entry being kept
exactly when both its stripped title and stripped summary are non-empty. -/
theorem C8_fetch_rss_articles_spec :
    ∀ (feedOf : PyStr → FeedResult) (n : Nat),
      fetch_rss_articles feedOf n =
        (RSS_FEEDS.map fun u => feedArticles (feedOf u) n).flatten ∧
      feedArticles .failure n = [] ∧
      (∀ entries, feedArticles (.parsed true entries) n = []) ∧
      (∀ fr, (feedArticles fr n).length ≤ n) ∧
      (∀ entries a, a ∈ feedArticles (.parsed false entries) n ↔
        ∃ e ∈ entries.take n, a = entryArticle e ∧ a.title ≠ [] ∧ a.summary ≠ []) := by
  intro feedOf n
  refine ⟨?_, rfl, fun _ => rfl, ?_, ?_⟩
  · rw [fetch_rss_articles, fetchLoop_flatten]
  · intro fr
    match fr with
    | .failure => simp [feedArticles]
    | .parsed true entries => simp [feedArticles]
    | .parsed false entries =>
      calc (feedArticles (.parsed false entries) n).length
          ≤ ((entries.take n).map entryArticle).length :=
            List.length_filter_le _ _
        _ ≤ n := by
            rw [List.length_map, List.length_take]
            omega
  · intro entries a
    simp only [feedArticles, List.mem_filter, List.mem_map, Bool.and_eq_true,
      Bool.not_eq_true', isEmpty_false_iff_ne_nil, ne_eq]
    constructor
    · rintro ⟨⟨e, he, rfl⟩, h1, h2⟩
      exact ⟨e, he, rfl, by simpa using h1, by simpa using h2⟩
    · rintro ⟨e, he, rfl, h1, h2⟩
      exact ⟨⟨e, he, rfl⟩, by simpa using h1, by simpa using h2⟩

/-! ## Prompt templates (`prompt_templates.py`) and orchestration (`ai_service.py`) -/

namespace PromptTemplates

/-- The fixed tail of the fresh-data template (rules, structure, SEO
requirements). -/
def fresh_data_tail : PyStr :=
  ("\n\nCRITICAL RULES:\n• Use ONLY facts and data provided above\n• Do NOT invent dates, statistics, or claims\n• If information is incomplete, acknowledge it\n• Cite recent developments naturally\n• Maintain an authoritative, current tone\n\nCONTENT STRUCTURE:\n• H2 Heading 1: Introduction and relevance (100-150 words)\n• H2 Heading 2: Key insight #1 (150-200 words)\n• H2 Heading 3: Key insight #2 (150-200 words)\n• H2 Heading 4: Takeaway/implementation (100-150 words)\n\nSEO REQUIREMENTS:\n• Naturally include the primary keyword 2-3 times\n• Use 2-3 long-tail keyword variations\n• Short paragraphs (2-3 sentences max)\n• Use bullet points for data/statistics\n• Professional tone, 7th-grade reading level\n• Total: 700-800 words\n\nWrite the blog post now (H2/H3 headings included, no introductory text):").data

/-- `PromptTemplates.blog_post_with_fresh_data`. -/
def blog_post_with_fresh_data (topic fresh_context : PyStr) : PyStr :=
  "You are an expert SEO content strategist writing for business decision-makers.\n\nTOPIC: ".data
    ++ topic
    ++ "\n\nRECENT DATA YOU MUST USE:\n".data
    ++ fresh_context
    ++ fresh_data_tail

/-- `PromptTemplates.blog_post_evergreen`. -/
def blog_post_evergreen (topic : PyStr) : PyStr :=
  "You are an expert SEO content strategist writing timeless content for business readers.\n\nTOPIC: ".data
    ++ topic
    ++ ("\n\nCONTENT STRUCTURE:\n• H2 Heading 1: Why this matters (100-150 words)\n• H2 Heading 2: Core concept/strategy (150-200 words)\n• H2 Heading 3: Practical implementation (150-200 words)\n• H2 Heading 4: Common mistakes to avoid (100-150 words)\n\nSEO REQUIREMENTS:\n• Naturally include the primary keyword 2-3 times\n• Use 2-3 long-tail keyword variations\n• Short paragraphs (2-3 sentences max)\n• Use numbered lists and bullet points\n• Professional tone, 7th-grade reading level\n• Provide timeless, actionable strategies\n• Avoid dates, trends, or time-specific references\n• Total: 700-800 words\n\nWrite the blog post now (H2/H3 headings included, no introductory text):").data

/-- `PromptTemplates.blog_metadata_system_prompt` (the closed system prompt
for metadata generation; its exact wording is immaterial to the claims). -/
def blog_metadata_system_prompt : PyStr :=
  ("You are an expert SEO content strategist and conversion rate optimization specialist.\n\nTASK: Generate SEO-optimized metadata for a blog post.\n\nOUTPUT REQUIREMENTS:\nGenerate exactly 4 JSON fields:\n\n1. title (50-60 characters)\n2. meta_description (150-160 characters)\n3. featured_image_prompt (50+ words)\n4. content (700-800 words)\n\nRESPONSE FORMAT:\nReturn ONLY valid JSON with these exact keys: 'title', 'meta_description', 'featured_image_prompt', 'content'.\nNO MARKDOWN, NO CODE BLOCKS, NO EXTRA TEXT. Valid JSON only.").data

end PromptTemplates

/-- The oracles behind one blog-generation request: the feed parser, the JSON
parser, the Ollama HTTP exchange, and the featured-image sub-step
(`generate_featured_image`: enhancement followed by the image API call,
returning a URL or raising). -/
structure BlogEnv where
  feedOf : PyStr → FeedResult
  parse : PyStr → Option PyVal
  net : PyStr → PostResult
  imageOf : PyVal → Except PyStr PyStr

/-- Step 1 of `generate_detailed_blog` / `generate_blog_with_image`: fresh
context, absent unless the topic signals freshness and articles were
fetched. -/
def freshContextFor (env : BlogEnv) (topic : PyStr) : Option PyStr :=
  if needs_fresh_data topic then
    let articles := fetch_rss_articles env.feedOf 3
    if articles.isEmpty then none
    else some (build_fresh_context articles 1200)
  else none

/-- Step 2 of `generate_detailed_blog` / `generate_blog_with_image`: template
choice by truthiness of the fresh context, plus (in `generate_detailed_blog`
only) the serialized caller context when truthy. -/
def assembled_blog_prompt (env : BlogEnv) (topic : PyStr) (context : Option PyVal) : PyStr :=
  let base :=
    match freshContextFor env topic with
    | some c =>
      if c.isEmpty then PromptTemplates.blog_post_evergreen topic
      else PromptTemplates.blog_post_with_fresh_data topic c
    | none => PromptTemplates.blog_post_evergreen topic
  match context with
  | some ctx =>
    if pyTruthy ctx then base ++ "\n\nAdditional context to consider: ".data ++ dumps ctx
    else base
  | none => base

/-- `generate_blog_metadata` from `ai_service.py`: a structured generation
call with the metadata system prompt. -/
def generate_blog_metadata (parse : PyStr → Option PyVal) (net : PyStr → PostResult)
    (prompt : PyStr) : Except PyErr PyVal :=
  generate_json_response parse net prompt (some PromptTemplates.blog_metadata_system_prompt)

/-- The value returned by `generate_detailed_blog`. -/
structure DetailedBlogResult where
  keyword : PyStr
  blog : PyStr
deriving DecidableEq

/-- `generate_detailed_blog` from `ai_service.py` (steps 3–4 and the return):
metadata generation, then — only when the metadata's
`featured_image_prompt` is truthy — the image sub-step, whose failure is
caught and recorded as a `None` URL; the keyword is attached and the
metadata dictionary serialized. Reading a field of a non-dictionary
metadata value raises `AttributeError`, which the function re-raises. -/
def generate_detailed_blog (env : BlogEnv) (keyword : PyStr) (context : Option PyVal) :
    Except PyErr DetailedBlogResult :=
  match generate_blog_metadata env.parse env.net (assembled_blog_prompt env keyword context) with
  | .error e => .error e
  | .ok ai_json =>
    match ai_json with
    | .vDict es =>
      let featured_prompt := dictGet es "featured_image_prompt".data (.vStr [])
      let es1 :=
        if pyTruthy featured_prompt then
          match env.imageOf featured_prompt with
          | .ok image_url => pyDictAssign es "featured_image_url".data (.vStr image_url)
          | .error _ => pyDictAssign es "featured_image_url".data .vNone
        else es
      let es2 := pyDictAssign es1 "keyword".data (.vStr keyword)
      .ok { keyword := keyword, blog := dumps (.vDict es2) }
    | _ => .error .attrError

/-- `generate_blog_with_image` from `ai_service.py`: the same pipeline with
the free-form prompt standing in for the topic, no caller context, no
keyword attachment, and the metadata dictionary returned directly. -/
def generate_blog_with_image (env : BlogEnv) (prompt : PyStr) : Except PyErr PyVal :=
  match generate_blog_metadata env.parse env.net (assembled_blog_prompt env prompt none) with
  | .error e => .error e
  | .ok ai_json =>
    match ai_json with
    | .vDict es =>
      let featured_prompt := dictGet es "featured_image_prompt".data (.vStr [])
      let es1 :=
        if pyTruthy featured_prompt then
          match env.imageOf featured_prompt with
          | .ok image_url => pyDictAssign es "featured_image_url".data (.vStr image_url)
          | .error _ => pyDictAssign es "featured_image_url".data .vNone
        else es
      .ok (.vDict es1)
    | _ => .error .attrError

/-- **C6.** In `generate_detailed_blog`, when the metadata came back with a
truthy `featured_image_prompt` and the image sub-step raises, the exception
is caught: the result is still a success whose serialized blog carries
`featured_image_url = None`, with the rest of the metadata (e.g. `content`)
intact. -/
theorem C6_image_failure_caught :
    ∀ (env : BlogEnv) (keyword : PyStr) (context : Option PyVal)
      (es : List (PyStr × PyVal)) (emsg : PyStr),
      generate_blog_metadata env.parse env.net (assembled_blog_prompt env keyword context) =
        .ok (.vDict es) →
      pyTruthy (dictGet es "featured_image_prompt".data (.vStr [])) = true →
      env.imageOf (dictGet es "featured_image_prompt".data (.vStr [])) = .error emsg →
      generate_detailed_blog env keyword context =
        .ok { keyword := keyword
              blog := dumps (.vDict (pyDictAssign
                (pyDictAssign es "featured_image_url".data .vNone)
                "keyword".data (.vStr keyword))) } ∧
      pyDictFind?
        (pyDictAssign (pyDictAssign es "featured_image_url".data .vNone)
          "keyword".data (.vStr keyword)) "featured_image_url".data = some .vNone ∧
      pyDictFind?
        (pyDictAssign (pyDictAssign es "featured_image_url".data .vNone)
          "keyword".data (.vStr keyword)) "content".data = pyDictFind? es "content".data := by
  intro env keyword context es emsg hmeta htruthy himg
  refine ⟨?_, ?_, ?_⟩
  · unfold generate_detailed_blog
    rw [hmeta]
    simp only [htruthy, if_true, himg]
  · rw [pyDictFind?_assign, if_neg (by decide), pyDictFind?_assign, if_pos rfl]
  · rw [pyDictFind?_assign, if_neg (by decide), pyDictFind?_assign, if_neg (by decide)]

/-- Oracle set for the image-failure scenario: the backend returns an
envelope whose `response` text parses to metadata with a truthy image
prompt, and the image sub-step always raises. -/
def wEnv6 : BlogEnv where
  feedOf := fun _ => .failure
  parse := fun t =>
    if t = "meta".data then
      some (.vDict [("featured_image_prompt".data, .vStr "img".data),
                    ("content".data, .vStr "body".data)])
    else none
  net := fun _ => .jsonBody (.vDict [("response".data, .vStr "meta".data)])
  imageOf := fun _ => .error "api down".data

theorem C6_image_failure_caught_witness :
    generate_blog_metadata wEnv6.parse wEnv6.net
        (assembled_blog_prompt wEnv6 "tips".data none) =
      .ok (.vDict [("featured_image_prompt".data, PyVal.vStr "img".data),
                   ("content".data, PyVal.vStr "body".data)]) ∧
    generate_detailed_blog wEnv6 "tips".data none =
      .ok { keyword := "tips".data
            blog := dumps (.vDict (pyDictAssign
              (pyDictAssign
                [("featured_image_prompt".data, PyVal.vStr "img".data),
                 ("content".data, PyVal.vStr "body".data)]
                "featured_image_url".data .vNone)
              "keyword".data (.vStr "tips".data))) } ∧
    pyDictFind?
      (pyDictAssign (pyDictAssign
        [("featured_image_prompt".data, PyVal.vStr "img".data),
         ("content".data, PyVal.vStr "body".data)]
        "featured_image_url".data .vNone)
        "keyword".data (.vStr "tips".data)) "featured_image_url".data = some .vNone :=
  ⟨rfl,
    (C6_image_failure_caught wEnv6 "tips".data none
      [("featured_image_prompt".data, PyVal.vStr "img".data),
       ("content".data, PyVal.vStr "body".data)] "api down".data rfl rfl rfl).1,
    (C6_image_failure_caught wEnv6 "tips".data none
      [("featured_image_prompt".data, PyVal.vStr "img".data),
       ("content".data, PyVal.vStr "body".data)] "api down".data rfl rfl rfl).2.1⟩

theorem pyDictFind?_raw_none (text k : PyStr) (hk : ("raw".data == k) = false) :
    pyDictFind? [("raw".data, PyVal.vStr text)] k = none := by
  unfold pyDictFind?
  rw [@List.find?_cons_of_neg _ (fun p => p.1 == k) ("raw".data, PyVal.vStr text) []
    (by simp [hk])]
  rfl

theorem dictGet_raw_default (text k : PyStr) (d : PyVal) (hk : ("raw".data == k) = false) :
    dictGet [("raw".data, PyVal.vStr text)] k d = d := by
  unfold dictGet
  rw [@List.find?_cons_of_neg _ (fun p => p.1 == k) ("raw".data, PyVal.vStr text) []
    (by simp [hk])]
  rfl

/-- **C9.** When blog-metadata generation degrades to the raw fallback, or
otherwise yields a falsy (missing or empty) `featured_image_prompt`, both
`generate_detailed_blog` and `generate_blog_with_image` skip the image
sub-step entirely and the resulting blog dictionary has no
`featured_image_url` key at all — in contrast to the image-failure case,
which stores an explicit `None`. -/
theorem C9_image_step_skipped_key_absent :
    ∀ (env : BlogEnv) (kw : PyStr) (context : Option PyVal) (text : PyStr)
      (es : List (PyStr × PyVal)),
      (generate_text env.net (assembled_blog_prompt env kw context)
          (some PromptTemplates.blog_metadata_system_prompt) = .ok text →
        env.parse (stripJsonFences text) = none →
        generate_detailed_blog env kw context =
          .ok { keyword := kw
                blog := dumps (.vDict (pyDictAssign [("raw".data, .vStr text)]
                  "keyword".data (.vStr kw))) } ∧
        pyDictFind? (pyDictAssign [("raw".data, PyVal.vStr text)]
          "keyword".data (.vStr kw)) "featured_image_url".data = none) ∧
      (generate_blog_metadata env.parse env.net (assembled_blog_prompt env kw context) =
          .ok (.vDict es) →
        pyTruthy (dictGet es "featured_image_prompt".data (.vStr [])) = false →
        pyDictFind? es "featured_image_url".data = none →
        generate_detailed_blog env kw context =
          .ok { keyword := kw
                blog := dumps (.vDict (pyDictAssign es "keyword".data (.vStr kw))) } ∧
        pyDictFind? (pyDictAssign es "keyword".data (.vStr kw))
          "featured_image_url".data = none) ∧
      (generate_blog_metadata env.parse env.net (assembled_blog_prompt env kw none) =
          .ok (.vDict es) →
        pyTruthy (dictGet es "featured_image_prompt".data (.vStr [])) = false →
        generate_blog_with_image env kw = .ok (.vDict es)) := by
  intro env kw context text es
  refine ⟨?_, ?_, ?_⟩
  · intro hgen hparse
    have hmeta : generate_blog_metadata env.parse env.net
        (assembled_blog_prompt env kw context) = .ok (.vDict [("raw".data, .vStr text)]) := by
      unfold generate_blog_metadata generate_json_response
      simp only [hgen, generate_json_response_normalize, hparse]
    constructor
    · unfold generate_detailed_blog
      simp only [hmeta]
      rw [dictGet_raw_default text "featured_image_prompt".data (.vStr []) (by decide)]
      simp [pyTruthy]
    · rw [pyDictFind?_assign, if_neg (by decide)]
      exact pyDictFind?_raw_none text "featured_image_url".data (by decide)
  · intro hmeta hfalsy hnokey
    constructor
    · unfold generate_detailed_blog
      simp only [hmeta]
      simp [hfalsy]
    · rw [pyDictFind?_assign, if_neg (by decide)]
      exact hnokey
  · intro hmeta hfalsy
    unfold generate_blog_with_image
    simp only [hmeta]
    simp [hfalsy]

/-- Oracles for the raw-fallback scenario: the backend text never parses. -/
def wEnv9raw : BlogEnv where
  feedOf := fun _ => .failure
  parse := fun _ => none
  net := fun _ => .jsonBody (.vDict [("response".data, .vStr "junk".data)])
  imageOf := fun _ => .error "unreachable".data

/-- Oracles for the missing-image-prompt scenario: metadata parses to a
dictionary without a `featured_image_prompt` key. -/
def wEnv9b : BlogEnv where
  feedOf := fun _ => .failure
  parse := fun t =>
    if t = "meta".data then some (.vDict [("content".data, .vStr "x".data)]) else none
  net := fun _ => .jsonBody (.vDict [("response".data, .vStr "meta".data)])
  imageOf := fun _ => .error "unreachable".data

theorem C9_image_step_skipped_key_absent_witness :
    generate_detailed_blog wEnv9raw "tips".data none =
      .ok { keyword := "tips".data
            blog := dumps (.vDict (pyDictAssign [("raw".data, .vStr "junk".data)]
              "keyword".data (.vStr "tips".data))) } ∧
    pyDictFind? (pyDictAssign [("raw".data, PyVal.vStr "junk".data)]
      "keyword".data (.vStr "tips".data)) "featured_image_url".data = none ∧
    generate_blog_with_image wEnv9b "tips".data =
      .ok (.vDict [("content".data, PyVal.vStr "x".data)]) :=
  ⟨((C9_image_step_skipped_key_absent wEnv9raw "tips".data none "junk".data []).1 rfl rfl).1,
   ((C9_image_step_skipped_key_absent wEnv9raw "tips".data none "junk".data []).1 rfl rfl).2,
   (C9_image_step_skipped_key_absent wEnv9b "tips".data none "junk".data
     [("content".data, PyVal.vStr "x".data)]).2.2 rfl rfl⟩

/-! C7 support: when every article block fits within `max_chars`, the context
builder appends them all, so each fetched title occurs literally in the
built context and hence in the assembled prompt. -/

/-- Does the accumulation loop of `build_fresh_context` append every block
without ever triggering the truncation branch? (`accLen` tracks the length
of the accumulated text.) -/
def buildFits (mc : Int) : List Article → Nat → Int → Bool
  | [], _, _ => true
  | a :: rest, idx, accLen =>
    if accLen + ((articleText idx a).length : Int) > mc then false
    else buildFits mc rest (idx + 1) (accLen + ((articleText idx a).length : Int))

theorem ne_nil_isEmpty_false {α : Type} (l : List α) (h : l ≠ []) : l.isEmpty = false := by
  cases l with
  | nil => exact absurd rfl h
  | cons a t => rfl

theorem buildLoop_prefixOf (mc : Int) :
    ∀ (arts : List Article) (idx : Nat) (acc : PyStr), acc <+: buildLoop mc arts idx acc := by
  intro arts
  induction arts with
  | nil => intro idx acc; exact List.prefix_append acc FRESH_FOOTER
  | cons a rest ih =>
    intro idx acc
    unfold buildLoop
    by_cases hgt : (acc.length : Int) + ((articleText idx a).length : Int) > mc
    · rw [if_pos hgt]
      exact (List.prefix_append acc TRUNCATION_MARKER).trans
        (List.prefix_append _ FRESH_FOOTER)
    · rw [if_neg hgt]
      exact (List.prefix_append acc (articleText idx a)).trans (ih (idx + 1) _)

theorem titleInsideArticleText (idx : Nat) (a : Article) :
    a.title <:+: articleText idx a := by
  refine ⟨['\n'] ++ (Nat.repr idx).data ++ ". ".data,
    ['\n'] ++ cleanSummary a.summary ++ ['\n'], ?_⟩
  simp [articleText, List.append_assoc]

theorem title_in_buildLoop (mc : Int) :
    ∀ (arts : List Article) (idx : Nat) (acc : PyStr),
      buildFits mc arts idx (acc.length : Int) = true →
      ∀ a ∈ arts, a.title <:+: buildLoop mc arts idx acc := by
  intro arts
  induction arts with
  | nil => intro idx acc hfits a ha; simp at ha
  | cons b rest ih =>
    intro idx acc hfits a ha
    unfold buildFits at hfits
    by_cases hgt : (acc.length : Int) + ((articleText idx b).length : Int) > mc
    · rw [if_pos hgt] at hfits
      exact absurd hfits (by simp)
    · rw [if_neg hgt] at hfits
      unfold buildLoop
      rw [if_neg hgt]
      rcases List.mem_cons.mp ha with rfl | hrest
      · have hx : articleText idx a <:+: acc ++ articleText idx a :=
          ⟨acc, [], by simp⟩
        have h1 : a.title <:+: acc ++ articleText idx a :=
          (titleInsideArticleText idx a).trans hx
        have h2 : acc ++ articleText idx a <+: buildLoop mc rest (idx + 1) (acc ++ articleText idx a) :=
          buildLoop_prefixOf mc rest (idx + 1) _
        exact h1.trans h2.isInfix
      · have hlen : ((acc ++ articleText idx b).length : Int) =
            (acc.length : Int) + ((articleText idx b).length : Int) := by
          rw [List.length_append]; push_cast; ring
        refine ih (idx + 1) (acc ++ articleText idx b) ?_ a hrest
        rw [hlen]
        exact hfits

theorem build_fresh_context_ne_nil (articles : List Article) (mc : Int)
    (h : articles ≠ []) : build_fresh_context articles mc ≠ [] := by
  unfold build_fresh_context
  rw [if_neg (by simp [ne_nil_isEmpty_false _ h])]
  intro hc
  have hpre := buildLoop_prefixOf mc articles 1 FRESH_HEADER
  rw [hc] at hpre
  have := List.prefix_nil.mp hpre
  simp [FRESH_HEADER] at this

theorem titles_in_build_fresh_context (articles : List Article)
    (hfits : buildFits 1200 articles 1 (FRESH_HEADER.length : Int) = true)
    (hne : articles ≠ []) :
    ∀ a ∈ articles, a.title <:+: build_fresh_context articles 1200 := by
  intro a ha
  unfold build_fresh_context
  rw [if_neg (by simp [ne_nil_isEmpty_false _ hne])]
  exact title_in_buildLoop 1200 articles 1 FRESH_HEADER hfits a ha

theorem ctx_infix_fresh_prompt (topic ctx : PyStr) :
    ctx <:+: PromptTemplates.blog_post_with_fresh_data topic ctx :=
  ⟨"You are an expert SEO content strategist writing for business decision-makers.\n\nTOPIC: ".data
      ++ topic ++ "\n\nRECENT DATA YOU MUST USE:\n".data,
    PromptTemplates.fresh_data_tail, rfl⟩

/-- **C7.** End to end: for a topic with no freshness signal the RSS fetch is
never consulted (the result is invariant under replacing the feed oracle) and
the assembled prompt is the evergreen template; for a freshness-signalled
topic with a non-empty fetch whose blocks all fit the context budget, the
assembled prompt contains each fetched article title literally; and whenever
the metadata call returns a dictionary, the operation returns the input
keyword together with the serialized metadata, with the keyword attached and
the `title`/`meta_description`/`content` entries preserved. -/
theorem C7_detailed_blog_end_to_end :
    ∀ (env : BlogEnv) (kw : PyStr) (context : Option PyVal),
      (needs_fresh_data kw = false →
        assembled_blog_prompt env kw none = PromptTemplates.blog_post_evergreen kw ∧
        ∀ feedOf2 : PyStr → FeedResult,
          generate_detailed_blog ⟨feedOf2, env.parse, env.net, env.imageOf⟩ kw context =
            generate_detailed_blog env kw context) ∧
      (needs_fresh_data kw = true →
        fetch_rss_articles env.feedOf 3 ≠ [] →
        buildFits 1200 (fetch_rss_articles env.feedOf 3) 1 (FRESH_HEADER.length : Int) = true →
        ∀ a ∈ fetch_rss_articles env.feedOf 3,
          a.title <:+: assembled_blog_prompt env kw none) ∧
      (∀ es, generate_blog_metadata env.parse env.net (assembled_blog_prompt env kw context) =
          .ok (.vDict es) →
        ∃ esf, generate_detailed_blog env kw context =
            .ok { keyword := kw, blog := dumps (.vDict esf) } ∧
          pyDictFind? esf "keyword".data = some (.vStr kw) ∧
          pyDictFind? esf "title".data = pyDictFind? es "title".data ∧
          pyDictFind? esf "meta_description".data = pyDictFind? es "meta_description".data ∧
          pyDictFind? esf "content".data = pyDictFind? es "content".data) := by
  intro env kw context
  refine ⟨?_, ?_, ?_⟩
  · intro h
    have hfc : freshContextFor env kw = none := by
      unfold freshContextFor
      rw [if_neg (by simp [h])]
    constructor
    · unfold assembled_blog_prompt
      rw [hfc]
    · intro f2
      have hfc2 : freshContextFor ⟨f2, env.parse, env.net, env.imageOf⟩ kw = none := by
        unfold freshContextFor
        rw [if_neg (by simp [h])]
      have hp : assembled_blog_prompt ⟨f2, env.parse, env.net, env.imageOf⟩ kw context =
          assembled_blog_prompt env kw context := by
        unfold assembled_blog_prompt
        rw [hfc, hfc2]
      unfold generate_detailed_blog
      rw [hp]
  · intro h hne hfits a ha
    have hfa : (fetch_rss_articles env.feedOf 3).isEmpty = false := ne_nil_isEmpty_false _ hne
    have hctx : build_fresh_context (fetch_rss_articles env.feedOf 3) 1200 ≠ [] :=
      build_fresh_context_ne_nil _ _ hne
    have habp : assembled_blog_prompt env kw none =
        PromptTemplates.blog_post_with_fresh_data kw
          (build_fresh_context (fetch_rss_articles env.feedOf 3) 1200) := by
      unfold assembled_blog_prompt freshContextFor
      rw [if_pos h, if_neg (by simp [hfa])]
      simp [ne_nil_isEmpty_false _ hctx]
    rw [habp]
    exact (titles_in_build_fresh_context _ hfits hne a ha).trans
      (ctx_infix_fresh_prompt kw _)
  · intro es hmeta
    by_cases himg : pyTruthy (dictGet es "featured_image_prompt".data (.vStr [])) = true
    · cases himgr : env.imageOf (dictGet es "featured_image_prompt".data (.vStr [])) with
      | ok url =>
        refine ⟨pyDictAssign (pyDictAssign es "featured_image_url".data (.vStr url))
          "keyword".data (.vStr kw), ?_, ?_, ?_, ?_, ?_⟩
        · unfold generate_detailed_blog
          simp only [hmeta, himg, if_true, himgr]
        · rw [pyDictFind?_assign, if_pos rfl]
        · rw [pyDictFind?_assign, if_neg (by decide), pyDictFind?_assign, if_neg (by decide)]
        · rw [pyDictFind?_assign, if_neg (by decide), pyDictFind?_assign, if_neg (by decide)]
        · rw [pyDictFind?_assign, if_neg (by decide), pyDictFind?_assign, if_neg (by decide)]
      | error e =>
        refine ⟨pyDictAssign (pyDictAssign es "featured_image_url".data .vNone)
          "keyword".data (.vStr kw), ?_, ?_, ?_, ?_, ?_⟩
        · unfold generate_detailed_blog
          simp only [hmeta, himg, if_true, himgr]
        · rw [pyDictFind?_assign, if_pos rfl]
        · rw [pyDictFind?_assign, if_neg (by decide), pyDictFind?_assign, if_neg (by decide)]
        · rw [pyDictFind?_assign, if_neg (by decide), pyDictFind?_assign, if_neg (by decide)]
        · rw [pyDictFind?_assign, if_neg (by decide), pyDictFind?_assign, if_neg (by decide)]
    · refine ⟨pyDictAssign es "keyword".data (.vStr kw), ?_, ?_, ?_, ?_, ?_⟩
      · unfold generate_detailed_blog
        simp only [hmeta]
        simp [himg]
      · rw [pyDictFind?_assign, if_pos rfl]
      · rw [pyDictFind?_assign, if_neg (by decide)]
      · rw [pyDictFind?_assign, if_neg (by decide)]
      · rw [pyDictFind?_assign, if_neg (by decide)]

/-- Oracles for the end-to-end scenarios: one fetched article per feed,
metadata parsing into a full dictionary, image sub-step unused or failing. -/
def wEnv7 : BlogEnv where
  feedOf := fun _ =>
    .parsed false [⟨some "Alpha".data, some "Beta".data, none, none, none, none⟩]
  parse := fun t =>
    if t = "meta".data then
      some (.vDict [("title".data, .vStr "T".data),
                    ("meta_description".data, .vStr "D".data),
                    ("content".data, .vStr "B".data)])
    else none
  net := fun _ => .jsonBody (.vDict [("response".data, .vStr "meta".data)])
  imageOf := fun _ => .error "down".data

theorem C7_detailed_blog_end_to_end_witness :
    needs_fresh_data "widget cleaning tips".data = false ∧
    assembled_blog_prompt wEnv7 "widget cleaning tips".data none =
      PromptTemplates.blog_post_evergreen "widget cleaning tips".data ∧
    generate_detailed_blog ⟨fun _ => .failure, wEnv7.parse, wEnv7.net, wEnv7.imageOf⟩
        "widget cleaning tips".data none =
      generate_detailed_blog wEnv7 "widget cleaning tips".data none ∧
    needs_fresh_data "SEO trends 2025".data = true ∧
    "Alpha".data <:+: assembled_blog_prompt wEnv7 "SEO trends 2025".data none ∧
    (∃ esf, generate_detailed_blog wEnv7 "widget cleaning tips".data none =
        .ok { keyword := "widget cleaning tips".data, blog := dumps (.vDict esf) } ∧
      pyDictFind? esf "keyword".data = some (.vStr "widget cleaning tips".data) ∧
      pyDictFind? esf "title".data =
        pyDictFind? [("title".data, PyVal.vStr "T".data),
                     ("meta_description".data, PyVal.vStr "D".data),
                     ("content".data, PyVal.vStr "B".data)] "title".data ∧
      pyDictFind? esf "meta_description".data =
        pyDictFind? [("title".data, PyVal.vStr "T".data),
                     ("meta_description".data, PyVal.vStr "D".data),
                     ("content".data, PyVal.vStr "B".data)] "meta_description".data ∧
      pyDictFind? esf "content".data =
        pyDictFind? [("title".data, PyVal.vStr "T".data),
                     ("meta_description".data, PyVal.vStr "D".data),
                     ("content".data, PyVal.vStr "B".data)] "content".data) :=
  ⟨rfl,
   ((C7_detailed_blog_end_to_end wEnv7 "widget cleaning tips".data none).1 rfl).1,
   ((C7_detailed_blog_end_to_end wEnv7 "widget cleaning tips".data none).1 rfl).2
     (fun _ => .failure),
   rfl,
   (C7_detailed_blog_end_to_end wEnv7 "SEO trends 2025".data none).2.1 rfl
     (by decide) rfl ⟨"Alpha".data, "Beta".data, [], []⟩ (by decide),
   (C7_detailed_blog_end_to_end wEnv7 "widget cleaning tips".data none).2.2
     [("title".data, PyVal.vStr "T".data),
      ("meta_description".data, PyVal.vStr "D".data),
      ("content".data, PyVal.vStr "B".data)] rfl⟩
